import Mathlib

/-
  Verification development for the Placeholder Fill Orchestration Engine of the
  text-editor-app repository.  The engine's text-level behaviour is embedded
  shallowly: documents are lists of characters, the JavaScript string routines
  of src/App.js (and, where noted, the src/myApp/App.js snapshot) are
  translated into executable Lean functions, and the specification's claims are
  settled as theorems about those functions.
-/

namespace TextEditor

/-! ### JavaScript character classes and trimming -/

/-- The apostrophe character (U+0027), used in several of the source's
    string patterns. -/
def apos : Char := Char.ofNat 39

/-- Characters matched by the JavaScript regex class U+005Cs and removed by
    String.prototype.trim / trimStart / trimEnd, restricted to the code points
    that can occur in the repository's data. -/
def jsWsChars : List Char :=
  [' ', '\t', '\n', '\x0d', Char.ofNat 11, Char.ofNat 12,
   Char.ofNat 0xa0, Char.ofNat 0x2028, Char.ofNat 0x2029, Char.ofNat 0xfeff]

/-- Whether a character is JavaScript whitespace. -/
def isJsWs (c : Char) : Bool := jsWsChars.contains c

/-- Model of JavaScript String.prototype.trimStart. -/
def jsTrimStart (t : List Char) : List Char := t.dropWhile isJsWs

/-- Model of JavaScript String.prototype.trimEnd. -/
def jsTrimEnd (t : List Char) : List Char := (t.reverse.dropWhile isJsWs).reverse

/-- Model of JavaScript String.prototype.trim. -/
def jsTrim (t : List Char) : List Char := jsTrimStart (jsTrimEnd t)

/-- Characters matched by the regex metacharacter `.` (anything but a line
    terminator). -/
def isRegexDot (c : Char) : Bool :=
  !(c = '\n' || c = '\x0d' || c = Char.ofNat 0x2028 || c = Char.ofNat 0x2029)

/-! ### The placeholder scanner

src/App.js lines 1306-1334 (findAllSlashPlaceholders) and
src/myApp/App.js lines 794-812 (findSingleSlash) test a slash position with
identical character conditions; findAllSlashPlaceholders additionally skips
slashes inside image markers. -/

/-- The space-like test of the scanner: space, newline or tab before a
    candidate slash (src/App.js line 1327). -/
def isSpaceLike (c : Char) : Bool := c = ' ' || c = '\n' || c = '\t'

/-- The character conditions applied to position i by both scanners:
    text[i] is a slash, the previous character (space when at the start) is
    neither a colon nor a slash, the next character (space when at the end) is
    not a slash, and the previous character is space-like or i is 0. -/
def slashCandidateAt (t : List Char) (i : Nat) : Bool :=
  t.getD i ' ' = '/' &&
  (let prevChar := if i = 0 then ' ' else t.getD (i - 1) ' '
   let nextChar := t.getD (i + 1) ' '
   prevChar ≠ ':' && prevChar ≠ '/' && nextChar ≠ '/' &&
     (prevChar = ' ' || prevChar = '\n' || prevChar = '\t' || i = 0))

/-- Model of findSingleSlash (src/myApp/App.js lines 794-812): the index of the
    first standalone slash, none in place of the source's -1. -/
def findSingleSlash (t : List Char) : Option Nat :=
  (List.range t.length).find? (slashCandidateAt t)

/-- The literal header of an image marker, from the source regex
    IMAGE_MARKER_REGEX (src/App.js line 207). -/
def imgHeader : List Char := ['[', 'I', 'M', 'G', '|', '|']

/-- End position (exclusive) of the lazy inner part of an image marker starting
    the scan at q: the first b such that the b characters from q are
    non-line-terminators and are followed by a closing bracket. -/
def imgInnerEnd (t : List Char) (q : Nat) : Option Nat :=
  (List.range (t.length + 1)).findSome? fun b =>
    if ((t.drop q).take b).all isRegexDot && t.getD (q + b) '\n' = ']' then
      some (q + b + 1)
    else none

/-- End position (exclusive) of an image-marker match starting at p, following
    the backtracking order of the source regex: the first group expands
    lazily (outer), then the second group (inner). -/
def imgMatchEnd (t : List Char) (p : Nat) : Option Nat :=
  if (t.drop p).take 6 = imgHeader then
    (List.range (t.length + 1)).findSome? fun a =>
      if ((t.drop (p + 6)).take a).all isRegexDot &&
          t.getD (p + 6 + a) '\n' = '|' && t.getD (p + 6 + a + 1) '\n' = '|' then
        imgInnerEnd t (p + 6 + a + 2)
      else none
  else none

/-- Global scan for image markers: repeatedly take the leftmost match at or
    after the current start and continue after it, as the source's
    while-exec loop does (src/App.js lines 1309-1313). -/
def imgRangesAux (t : List Char) : Nat → Nat → List (Nat × Nat)
  | 0, _ => []
  | fuel + 1, start =>
    match (List.range' start (t.length + 1 - start)).findSome?
        (fun p => (imgMatchEnd t p).map fun e => (p, e)) with
    | none => []
    | some (p, e) => (p, e) :: imgRangesAux t fuel e

/-- The index ranges occupied by image markers in a text. -/
def imgRanges (t : List Char) : List (Nat × Nat) := imgRangesAux t (t.length + 1) 0

/-- Whether index i lies inside an image-marker range
    (src/App.js line 1314). -/
def insideImg (t : List Char) (i : Nat) : Bool :=
  (imgRanges t).any fun r => r.1 ≤ i && i < r.2

/-- Model of findAllSlashPlaceholders (src/App.js lines 1306-1334): all indices
    that pass the slash-candidate conditions and are not inside an image
    marker, in ascending order. -/
def findAllSlashPlaceholders (t : List Char) : List Nat :=
  (List.range t.length).filter fun i => !insideImg t i && slashCandidateAt t i

/-! ### Trigger detection and classification -/

/-- Whether an unescaped double slash starts at index i: two slashes whose
    preceding character is not a colon, as the regex (?<!:)U+002FU+002F
    tests at each position. -/
def doubleTriggerAt (t : List Char) (i : Nat) : Bool :=
  t.getD i ' ' = '/' && t.getD (i + 1) ' ' = '/' &&
    (decide (i = 0) || t.getD (i - 1) ' ' ≠ ':')

/-- Index of the leftmost unescaped double slash, the match index of the
    source's doubleTriggerRegex. -/
def findDoubleTrigger (t : List Char) : Option Nat :=
  (List.range t.length).find? (doubleTriggerAt t)

/-- Whether a text ends in sentence punctuation, the test
    of the regex [.!?] anchored at the end (src/myApp/App.js line 776). -/
def endsWithSentencePunct (t : List Char) : Bool :=
  match t.getLast? with
  | some c => c = '.' || c = '!' || c = '?'
  | none => false

/-- The batch-versus-inline decision of src/myApp/App.js lines 773-779, taken
    after the easter-egg guard: batch when the trimmed text before the trigger
    ends in sentence punctuation, or that text ends in a newline or trims to
    nothing, or it still contains a standalone slash. -/
def myAppIsBatchFill (pre : List Char) : Bool :=
  let trimmed := jsTrimEnd pre
  let endsWithPunctuation := endsWithSentencePunct trimmed
  let endsWithNewline := pre.getLast? = some '\n' || jsTrimEnd pre = []
  let hasPendingPlaceholders := (findSingleSlash pre).isSome
  endsWithPunctuation || endsWithNewline || hasPendingPlaceholders

/-- The fill modes distinguished by the trigger classifier. -/
inductive TriggerMode where
  | easter
  | batch
  | inlineFill
deriving DecidableEq

/-- Model of the classification in handleTextChange of src/myApp/App.js
    lines 746-791: find the trigger, split the text there, take the reserved
    easter-egg mode on a blank Left part, otherwise choose batch or inline. -/
def classifyTrigger (t : List Char) : Option TriggerMode :=
  match findDoubleTrigger t with
  | none => none
  | some i =>
    let pre := t.take i
    if jsTrim pre = [] then some .easter
    else if myAppIsBatchFill pre then some .batch
    else some .inlineFill

/-! ### The batch-fill orchestrator (src/App.js)

triggerBatchFill (src/App.js lines 1337-1444) first refuses when the
connectivity status is not connected, restoring the text it was given and
alerting; otherwise it builds a marked prompt and a base text with anchor
offsets, issues one transport call, parses and pads the answers and animates
them in sequentially. -/

/-- Marked-prompt construction (src/App.js lines 1344-1353): each fill
    position is replaced by a numbered FILL token and the marker character is
    skipped. -/
def batchMarkedAux (fullText : List Char) : List Nat → Nat → Nat → List Char
  | [], lastPos, _ => fullText.drop lastPos
  | pos :: rest, lastPos, i =>
    ((fullText.drop lastPos).take (pos - lastPos))
      ++ ("[FILL_".toList) ++ ((Nat.repr (i + 1)).toList) ++ [']']
      ++ batchMarkedAux fullText rest (pos + 1) (i + 1)

/-- The marked prompt for a list of fill positions. -/
def batchMarked (fullText : List Char) (fillPositions : List Nat) : List Char :=
  batchMarkedAux fullText fillPositions 0 0

/-- Base-text construction (src/App.js lines 1355-1369): remove the marker
    character at each fill position and record the length of the base text
    built so far as that position's anchor offset. -/
def batchBaseAux (fullText : List Char) : List Nat → Nat → Nat → List Char × List Nat
  | [], lastPos, _ => (fullText.drop lastPos, [])
  | pos :: rest, lastPos, accLen =>
    let seg := (fullText.drop lastPos).take (pos - lastPos)
    let tail := batchBaseAux fullText rest (pos + 1) (accLen + seg.length)
    (seg ++ tail.1, (accLen + seg.length) :: tail.2)

/-- The base text and anchor offsets for a list of fill positions. -/
def batchBase (fullText : List Char) (fillPositions : List Nat) : List Char × List Nat :=
  batchBaseAux fullText fillPositions 0 0

/-- The outcome of one text-change event in the model of handleTextChange /
    triggerBatchFill of src/App.js.  Only batchCall stands for an issued
    transport call; every other constructor finishes without any network
    activity. -/
inductive TriggerAction where
  | plainSet (text : List Char)
  | easterRefused (restored : List Char)
  | easterRun (content : List Char)
  | batchRefused (restored : List Char)
  | batchCall (marked : List Char) (baseText : List Char) (anchors : List Nat)
deriving DecidableEq

/-- The easter-egg literal (src/App.js line 1206). -/
def boingText : List Char := "Boing boing!".toList

/-- Model of the double-slash path of handleTextChange (src/App.js lines
    1189-1228) combined with the connectivity guards of the easter branch
    (lines 1200-1204) and of triggerBatchFill (lines 1338-1342), for inputs on
    which the earlier image-command branches do not fire.  On a trigger the
    text splits at the match; a blank part before it selects the easter egg,
    otherwise all slash placeholders of the text without the two trigger
    characters, together with the trigger position, are filled by one batch
    call. -/
def handleTextChange (connected : Bool) (newText : List Char) : TriggerAction :=
  match findDoubleTrigger newText with
  | none => .plainSet newText
  | some i =>
    let pre := newText.take i
    let suf := newText.drop (i + 2)
    if jsTrim pre = [] then
      if connected then .easterRun boingText
      else .easterRefused (pre ++ '/' :: '/' :: suf)
    else
      let fullText := pre ++ suf
      let slashPositions := findAllSlashPlaceholders fullText
      let allFillPositions := (slashPositions ++ [pre.length]).mergeSort (· ≤ ·)
      if connected then
        .batchCall (batchMarked fullText allFillPositions)
          (batchBase fullText allFillPositions).1
          (batchBase fullText allFillPositions).2
      else .batchRefused fullText

/-! ### Sequential batch animation (src/App.js lines 1448-1495)

animateBatchFills walks the anchor positions in order; for each non-empty
answer it recomputes the insertion point from the cumulative length delta,
trims whitespace around the split, spaces the answer, and splices it in; the
surrounding streaming animation resolves with exactly the spliced text. -/

/-- Characters before which no leading space is added (the regex class
    newline, open paren, open bracket, open brace of line 1471). -/
def opensGroupOrNewline (c : Char) : Bool :=
  c = '\n' || c = '(' || c = '[' || c = '{'

/-- Characters at which no trailing space is added (the closing punctuation
    class of line 1476). -/
def closingOrPunct (c : Char) : Bool :=
  c = '\n' || c = '.' || c = ',' || c = '!' || c = '?' || c = ';' || c = ':' ||
  c = apos || c = '"' || c = '-' || c = Char.ofNat 0x2014 || c = Char.ofNat 0x2013 ||
  c = ')' || c = ']' || c = '}'

/-- Spacing rule of lines 1468-1478: trim the answer, prepend one space unless
    the trimmed left context is empty or ends in a newline or opening bracket,
    append one space unless the trimmed right context is empty or starts with
    closing punctuation. -/
def spacedAnswerOf (trimmedBefore trimmedAfter answer : List Char) : List Char :=
  let a := jsTrim answer
  let a := if trimmedBefore.length > 0 && !opensGroupOrNewline (trimmedBefore.getLastD ' ')
    then ' ' :: a else a
  if trimmedAfter.length > 0 && !closingOrPunct (trimmedAfter.headD ' ')
    then a ++ [' '] else a

/-- Split point used by the JavaScript slice pair slice(0, i) / slice(i) for a
    possibly negative index i: clamp at the length for large i, count from the
    end for negative i. -/
def jsSliceSplit (len : Nat) (i : Int) : Nat :=
  if 0 ≤ i then min i.toNat len else len - (-i).toNat

/-- One applied insertion of the loop body (lines 1458-1491): compute the
    insertion position from the anchor plus the cumulative delta (the current
    length minus the base length), split there, trim whitespace on both sides,
    and splice in the spaced answer. -/
def batchStepText (baseLen : Nat) (current : List Char) (pos : Nat) (answer : List Char) :
    List Char :=
  let insertPos : Int := (pos : Int) + ((current.length : Int) - (baseLen : Int))
  let k := jsSliceSplit current.length insertPos
  let trimmedBefore := jsTrimEnd (current.take k)
  let trimmedAfter := jsTrimStart (current.drop k)
  trimmedBefore ++ spacedAnswerOf trimmedBefore trimmedAfter answer ++ trimmedAfter

/-- The sequential loop of animateBatchFills: falsy answers (missing or empty)
    are skipped, non-empty ones are spliced in left to right; each iteration
    reads the buffer produced by all earlier iterations. -/
def animateBatchFillsAux (baseLen : Nat) : List Char → List Nat → List String → List Char
  | current, [], _ => current
  | current, pos :: ps, answers =>
    let ans := answers.headD ""
    if ans = "" then animateBatchFillsAux baseLen current ps answers.tail
    else animateBatchFillsAux baseLen (batchStepText baseLen current pos ans.toList) ps
      answers.tail

/-- Model of animateBatchFills (src/App.js lines 1448-1495): the document text
    after the whole batch has animated in. -/
def animateBatchFills (baseText : List Char) (positions : List Nat) (answers : List String) :
    List Char :=
  animateBatchFillsAux baseText.length baseText positions answers

/-- One applied insertion, recorded for analysis: the buffer the step started
    from, the anchor position in the base text, and the raw answer. -/
structure BatchEv where
  prevBuf : List Char
  anchor : Nat
  answer : String
deriving DecidableEq

/-- The sequence of applied insertions of animateBatchFills, in execution
    order. -/
def batchEventsAux (baseLen : Nat) : List Char → List Nat → List String → List BatchEv
  | _, [], _ => []
  | current, pos :: ps, answers =>
    let ans := answers.headD ""
    if ans = "" then batchEventsAux baseLen current ps answers.tail
    else ⟨current, pos, ans⟩ ::
      batchEventsAux baseLen (batchStepText baseLen current pos ans.toList) ps answers.tail

/-- The insertion events of a batch fill run from its base text. -/
def batchEvents (baseText : List Char) (positions : List Nat) (answers : List String) :
    List BatchEv :=
  batchEventsAux baseText.length baseText positions answers

/-- The spaced answer an event splices in, recomputed from its recorded
    buffer, anchor and raw answer exactly as the step does. -/
def evSpaced (baseLen : Nat) (e : BatchEv) : List Char :=
  let insertPos : Int := (e.anchor : Int) + ((e.prevBuf.length : Int) - (baseLen : Int))
  let k := jsSliceSplit e.prevBuf.length insertPos
  spacedAnswerOf (jsTrimEnd (e.prevBuf.take k)) (jsTrimStart (e.prevBuf.drop k))
    e.answer.toList

/-- The number of whitespace characters an event trims away around its
    insertion point. -/
def evTrimmed (baseLen : Nat) (e : BatchEv) : Nat :=
  let insertPos : Int := (e.anchor : Int) + ((e.prevBuf.length : Int) - (baseLen : Int))
  let k := jsSliceSplit e.prevBuf.length insertPos
  ((e.prevBuf.take k).length - (jsTrimEnd (e.prevBuf.take k)).length) +
    ((e.prevBuf.drop k).length - (jsTrimStart (e.prevBuf.drop k)).length)

/-- Answer padding of src/App.js lines 1419-1422: push empty strings until the
    list is at least as long as the positions list. -/
def padAnswers (answers : List String) (n : Nat) : List String :=
  answers ++ List.replicate (n - answers.length) ""

/-- The position-answer pairs the loop actually applies: positions paired with
    their same-index answers (missing answers read as empty), keeping only the
    non-empty ones, in document order. -/
def appliedPairs (positions : List Nat) (answers : List String) : List (Nat × String) :=
  (positions.zip (padAnswers answers positions.length)).filter fun pr => pr.2 ≠ ""

/-! ### Batch answer parsing (src/App.js lines 1405-1417)

The raw message content is matched against the greedy bracketed-span regex;
when a span exists it is fed to JSON.parse, and only a thrown parse error
reaches the fallback comma/newline split.  When no span exists the answers
stay the empty list. -/

/-- Index of the first occurrence of a character. -/
def firstIdx (t : List Char) (c : Char) : Option Nat :=
  (List.range t.length).find? fun i => t.getD i ' ' = c

/-- Index of the last occurrence of a character. -/
def lastIdx (t : List Char) (c : Char) : Option Nat :=
  ((List.range t.length).filter fun i => t.getD i ' ' = c).getLast?

/-- The span matched by the greedy regex for a bracketed substring: from the
    first opening bracket to the last closing bracket, when the latter comes
    later. -/
def bracketSpan (raw : List Char) : Option (List Char) :=
  match firstIdx raw '[', lastIdx raw ']' with
  | some i, some j => if i < j then some ((raw.take (j + 1)).drop i) else none
  | _, _ => none

/-- JSON whitespace. -/
def isJsonWs (c : Char) : Bool := c = ' ' || c = '\t' || c = '\n' || c = '\x0d'

/-- Value of a hexadecimal digit. -/
def hexDigitVal (c : Char) : Option Nat :=
  let n := c.toNat
  if 48 ≤ n && n ≤ 57 then some (n - 48)
  else if 97 ≤ n && n ≤ 102 then some (n - 87)
  else if 65 ≤ n && n ≤ 70 then some (n - 55)
  else none

/-- The escape table of the JSON string grammar: the character after a
    backslash paired with the character it stands for. -/
def jsonEscapePairs : List (Char × Char) :=
  [('"', '"'), ('\\', '\\'), ('/', '/'), ('n', '\n'), ('t', '\t'),
   ('r', '\x0d'), ('b', Char.ofNat 8), ('f', Char.ofNat 12)]

/-- Body of a JSON string after the opening quote: returns the decoded
    characters and the remainder after the closing quote.  Models JSON.parse's
    string grammar (escapes, no raw control characters). -/
def parseJsonStringBody : Nat → List Char → Option (List Char × List Char)
  | 0, _ => none
  | _, [] => none
  | fuel + 1, c :: rest =>
    if c = '"' then some ([], rest)
    else if c = '\\' then
      match rest with
      | [] => none
      | e :: rest2 =>
        if e = 'u' then
          match rest2 with
          | h1 :: h2 :: h3 :: h4 :: rest3 =>
            match hexDigitVal h1, hexDigitVal h2, hexDigitVal h3, hexDigitVal h4 with
            | some a, some b, some c3, some d =>
              (parseJsonStringBody fuel rest3).map fun (pr : List Char × List Char) =>
                (Char.ofNat (((a * 16 + b) * 16 + c3) * 16 + d) :: pr.1, pr.2)
            | _, _, _, _ => none
          | _ => none
        else
          (jsonEscapePairs.lookup e).bind fun d =>
            (parseJsonStringBody fuel rest2).map fun (pr : List Char × List Char) => (d :: pr.1, pr.2)
    else if c.toNat < 32 then none
    else (parseJsonStringBody fuel rest).map fun (pr : List Char × List Char) => (c :: pr.1, pr.2)

/-- Elements of a JSON array of strings after the opening bracket: returns the
    strings and the remainder after the closing bracket. -/
def parseJsonArrayElems : Nat → List Char → Option (List String × List Char)
  | 0, _ => none
  | fuel + 1, t =>
    match t.dropWhile isJsonWs with
    | ']' :: rest => some ([], rest)
    | '"' :: rest =>
      (parseJsonStringBody fuel rest).bind fun pr =>
        match (pr.2.dropWhile isJsonWs) with
        | ',' :: rest2 =>
          (parseJsonArrayElems fuel (' ' :: rest2)).map fun pr2 =>
            (String.mk pr.1 :: pr2.1, pr2.2)
        | ']' :: rest2 => some ([String.mk pr.1], rest2)
        | _ => none
    | _ => none

/-- Model of JSON.parse restricted to arrays of strings: the source applies it
    only to a span of the shape bracket ... bracket, and the claims exercised
    here involve only string arrays; any other JSON shape is treated as a
    parse failure (which the source routes to the same fallback). -/
def parseJsonStringArray (t : List Char) : Option (List String) :=
  match t.dropWhile isJsonWs with
  | '[' :: rest =>
    (parseJsonArrayElems (t.length + 1) rest).bind fun pr =>
      if pr.2.dropWhile isJsonWs = [] then some pr.1 else none
  | _ => none

/-- Split a text at every comma or newline, as the source's split on the
    character class comma-newline does. -/
def splitCommaNewline : List Char → List (List Char)
  | [] => [[]]
  | c :: rest =>
    let r := splitCommaNewline rest
    if c = ',' || c = '\n' then [] :: r
    else (c :: r.headD []) :: r.tail

/-- Fallback parsing of src/App.js line 1416: split on commas and newlines,
    delete quote and bracket characters, trim, and drop empty pieces. -/
def fallbackSplit (raw : List Char) : List String :=
  (((splitCommaNewline raw).map fun s =>
      jsTrim (s.filter fun c => !(c = '"' || c = apos || c = '[' || c = ']'))).filter
    fun s => s ≠ []).map String.mk

/-- Model of the answer-parsing block of triggerBatchFill (src/App.js lines
    1405-1417): answers start empty; a bracketed span, when present, is parsed
    as JSON, and only a parse failure reaches the fallback split of the raw
    content; without a bracketed span the answers remain empty. -/
def parseBatchAnswers (raw : List Char) : List String :=
  match bracketSpan raw with
  | none => []
  | some span =>
    match parseJsonStringArray span with
    | some arr => arr
    | none => fallbackSplit raw

/-! ### Streaming animation traces (src/unnamed/part_009)

streamSingleFill reveals the content one chunk per tick behind a zero-width
cursor marker and resolves with the plain spliced text; streamDelete removes
one chunk per tick from the end.  With the default chunk size of one
character, the successive document states are listed below. -/

/-- The zero-width space used as the streaming cursor marker. -/
def zwsp : Char := Char.ofNat 0x200b

/-- Document states produced by streamSingleFill with chunk size one: each
    tick shows one more character followed by the cursor marker, and the final
    tick sets the plain spliced text. -/
def streamSingleFillStates (before content after : List Char) : List (List Char) :=
  ((List.range content.length).map fun i =>
    before ++ content.take (i + 1) ++ zwsp :: after) ++ [before ++ content ++ after]

/-- Document states produced by streamDelete with chunk size one: the text
    shrinks from the end one character per tick, ending empty. -/
def streamDeleteStates (text : List Char) : List (List Char) :=
  ((List.range text.length).map fun k => text.take (text.length - 1 - k)) ++ [[]]

/-- The document states of the easter-egg run (src/App.js lines 1206-1211):
    the fixed literal streams in, and after the fill resolves a delayed
    streamDelete erases it. -/
def easterStates : List (List Char) :=
  streamSingleFillStates [] boingText [] ++ streamDeleteStates boingText

/-! ### The sanitizer (src/App.js lines 97-167)

sanitizeModelContent is an ordered pipeline of regex replaces.  Each stage is
translated below into an executable function with the same matching
semantics (leftmost match, ordered alternation, greedy quantifiers with the
backtracking the pattern forces). -/

/-- Case-insensitive literal prefix match: the remainder after the pattern
    when it matches, none otherwise. -/
def ciRest : List Char → List Char → Option (List Char)
  | [], t => some t
  | _ :: _, [] => none
  | p :: ps, c :: cs => if p.toLower = c.toLower then ciRest ps cs else none

/-- First alternative (in pattern order) that is a case-insensitive prefix,
    with the remainder after it. -/
def firstAlt (alts : List (List Char)) (t : List Char) : Option (List Char) :=
  alts.findSome? fun a => ciRest a t

/-- Whether a pattern occurs case-insensitively anywhere in a text. -/
def containsCi (pat t : List Char) : Bool :=
  (List.range (t.length + 1)).any fun p => (ciRest pat (t.drop p)).isSome

/-- An anchored boilerplate strip: optional leading whitespace, one ordered
    alternative, then a greedy run of commas, colons and whitespace; when the
    pattern matches the whole match is removed, otherwise the text is
    unchanged. -/
def stripBoilerplate (alts : List (List Char)) (t : List Char) : List Char :=
  match firstAlt alts (t.dropWhile isJsWs) with
  | some rest => rest.dropWhile fun c => c = ',' || c = ':' || isJsWs c
  | none => t

/-- Alternatives of the first prefix-stripping regex (line 106), in pattern
    order. -/
def boilerAlts1 : List (List Char) :=
  ["according to".toList, "based on".toList, "from".toList, "per".toList,
   "via".toList, "as per".toList, "the answer is".toList, "it is".toList,
   "this is".toList, "that is".toList, "it".toList ++ apos :: ("s".toList),
   "that".toList ++ apos :: ("s".toList), "here is".toList,
   "here".toList ++ apos :: ("s".toList), "the".toList]

/-- Alternatives of the second prefix-stripping regex (line 107), with the
    optional plural tried greedily first. -/
def boilerAlts2 : List (List Char) :=
  ["search results".toList, "search result".toList, "sources".toList,
   "source".toList, "web search".toList, "results show".toList,
   "result show".toList, "i found".toList, "looking up".toList]

/-- Alternatives of the third prefix-stripping regex (line 108): the noun
    alternation (plural first) crossed with the verb alternation, in
    backtracking order. -/
def boilerAlts3 : List (List Char) :=
  (["acts", "act", "artists", "artist", "bands", "band", "members", "member",
    "names", "name", "answer"].map String.toList).flatMap fun noun =>
    (["under", "include", "is", "are", "would be"].map String.toList).map fun verb =>
      ("the ".toList) ++ noun ++ ' ' :: verb

/-- The trailing-number-artifact strip (line 109): remove a colon or comma
    followed by optional whitespace, digits and optional whitespace reaching
    the end of the text. -/
def stripTrailingNumArtifact (t : List Char) : List Char :=
  match (List.range t.length).find? (fun s =>
      (t.getD s ' ' = ':' || t.getD s ' ' = ',') &&
      (let r := (t.drop (s + 1)).dropWhile isJsWs
       let digits := r.takeWhile Char.isDigit
       digits.length > 0 && (r.drop digits.length).all isJsWs)) with
  | some s => t.take s
  | none => t

/-- The leading-punctuation strip (line 110): drop the leading run of
    whitespace, colons, commas, periods and hyphens. -/
def stripLeadingPunctRun (t : List Char) : List Char :=
  t.dropWhile fun c => isJsWs c || c = ':' || c = ',' || c = '.' || c = '-'

/-- The trailing-punctuation strip (line 111): drop the trailing run of
    whitespace, colons, commas and periods. -/
def stripTrailingPunctRun (t : List Char) : List Char :=
  (t.reverse.dropWhile fun c => isJsWs c || c = ':' || c = ',' || c = '.').reverse

/-- The test of the comma heuristic (line 114): at least one character before
    the first comma, and after that comma and optional whitespace one of the
    keywords follows. -/
def commaHeuristicTest (t : List Char) : Bool :=
  match t.findIdx? fun c => c = ',' with
  | some j =>
    decide (1 ≤ j) &&
      (firstAlt
        ["the".toList, "according".toList, "based".toList, "include".toList,
         "are".toList, "is".toList]
        ((t.drop (j + 1)).dropWhile isJsWs)).isSome
  | none => false

/-- The extraction of the comma heuristic (line 117): the leftmost match of
    one of the keywords followed by mandatory whitespace, capturing the
    longest run of non-line-terminators after the greedily matched
    whitespace. -/
def commaHeuristicExtract (t : List Char) : Option (List Char) :=
  (List.range t.length).findSome? fun p =>
    (firstAlt ["include".toList, "are".toList, "is".toList] (t.drop p)).bind
      fun rest =>
        let w := (rest.takeWhile isJsWs).length
        ((List.range w).map fun x => w - x).findSome? fun k =>
          match (rest.drop k).head? with
          | some c => if isRegexDot c then some ((rest.drop k).takeWhile isRegexDot)
            else none
          | none => none

/-- The comma heuristic of lines 114-121: when the test fires and the
    extraction matches, keep only the trimmed captured group. -/
def commaHeuristic (t : List Char) : List Char :=
  if commaHeuristicTest t then
    match commaHeuristicExtract t with
    | some g => jsTrim g
    | none => t
  else t

/-- A generic global regex replace: repeatedly find the leftmost match in the
    remaining text (as a start, length and replacement) and continue after
    it. -/
def jsReplAux (find : List Char → Option (Nat × Nat × List Char)) :
    Nat → List Char → List Char
  | 0, t => t
  | fuel + 1, t =>
    match find t with
    | none => t
    | some (s, len, r) =>
      if len = 0 then t
      else t.take s ++ r ++ jsReplAux find fuel (t.drop (s + len))

/-- Run a global replace with enough fuel for every match. -/
def jsReplaceAll (find : List Char → Option (Nat × Nat × List Char))
    (t : List Char) : List Char :=
  jsReplAux find (t.length + 1) t

/-- Length of the whitespace run ending just before position o. -/
def wsRunBefore (t : List Char) (o : Nat) : Nat :=
  ((t.take o).reverse.takeWhile isJsWs).length

/-- The first closing delimiter strictly after position o. -/
def findCloseAfter (t : List Char) (o : Nat) (closeC : Char) : Option Nat :=
  (List.range' (o + 1) (t.length - (o + 1))).find? fun e => t.getD e ' ' = closeC

/-- Leftmost match of a citation-span pattern: optional whitespace, an opening
    delimiter, an inner part free of the closing delimiter and satisfying the
    given content test, then the closing delimiter.  The whole match is
    removed. -/
def bracketCitationFind (openC closeC : Char) (p : List Char → Bool)
    (t : List Char) : Option (Nat × Nat × List Char) :=
  ((List.range t.length).findSome? fun o =>
    if t.getD o '\n' = openC then
      match findCloseAfter t o closeC with
      | some e => if p ((t.take e).drop (o + 1)) then some (o, e) else none
      | none => none
    else none).map fun oe =>
    let s := oe.1 - wsRunBefore t oe.1
    (s, oe.2 + 1 - s, ([] : List Char))

/-- Word characters of the regex class backslash-w. -/
def isWordChar (c : Char) : Bool := c.isAlpha || c.isDigit || c = '_'

/-- The top-level-domain alternatives of lines 126 and 133, with the optional
    letter of the first alternative expanded greedily. -/
def tldAlts : List (List Char) :=
  ["com", "co", "net", "org", "io", "ai", "app", "news", "tv", "fm", "uk",
   "us", "au", "de", "fr", "jp", "co"].map String.toList

/-- The domain-content test of the citation regexes: somewhere in the inner
    text, a word boundary, a word run, a period, optional whitespace, a
    top-level-domain token and a word boundary (the closing delimiter after
    the inner text counts as a boundary). -/
def innerHasDomain (inner : List Char) : Bool :=
  (List.range inner.length).any fun i =>
    (decide (i = 0) || !isWordChar (inner.getD (i - 1) ' ')) &&
    (let wlen := ((inner.drop i).takeWhile isWordChar).length
     wlen ≥ 1 && inner.getD (i + wlen) ' ' = '.' &&
       (let rest2 := (inner.drop (i + wlen + 1)).dropWhile isJsWs
        tldAlts.any fun tld =>
          match ciRest tld rest2 with
          | some after =>
            match after.head? with
            | none => true
            | some c => !isWordChar c
          | none => false))

/-- The URL-content test of lines 127 and 134: the inner text contains an
    http or https scheme or a www prefix. -/
def innerHasUrl (inner : List Char) : Bool :=
  containsCi ("https://".toList) inner || containsCi ("http://".toList) inner ||
    containsCi ("www.".toList) inner

/-- The digits-only content test of line 128. -/
def innerAllDigits (inner : List Char) : Bool :=
  inner.length > 0 && inner.all Char.isDigit

/-- The whitespace-only content test of lines 129 and 136. -/
def innerAllWs (inner : List Char) : Bool := inner.all isJsWs

/-- The citation-word content test of line 135: the inner text starts with one
    of the source words. -/
def innerStartsCitationWord (inner : List Char) : Bool :=
  (firstAlt
    ["source".toList, "via".toList, "according to".toList, "reported by".toList]
    inner).isSome

/-- Leftmost match of a bare URL (line 140): an http or https scheme followed
    by at least one non-whitespace character, greedily. -/
def urlFind (t : List Char) : Option (Nat × Nat × List Char) :=
  (List.range t.length).findSome? fun s =>
    (match ciRest ("https://".toList) (t.drop s) with
      | some rest => some rest
      | none => ciRest ("http://".toList) (t.drop s)).bind fun rest =>
      let run := (rest.takeWhile fun c => !isJsWs c).length
      if run ≥ 1 then some (s, (t.length - s - rest.length) + run, ([] : List Char))
      else none

/-- Leftmost match of a www reference (line 141): the www prefix followed by at
    least one character that is neither whitespace nor a closing paren. -/
def wwwFind (t : List Char) : Option (Nat × Nat × List Char) :=
  (List.range t.length).findSome? fun s =>
    (ciRest ("www.".toList) (t.drop s)).bind fun rest =>
      let run := (rest.takeWhile fun c => !(isJsWs c || c = ')')).length
      if run ≥ 1 then some (s, (t.length - s - rest.length) + run, ([] : List Char))
      else none

/-- The five punctuation characters of the spacing stages. -/
def isPunctFive (c : Char) : Bool :=
  c = ',' || c = '.' || c = ';' || c = '!' || c = '?'

/-- Leftmost match of whitespace before punctuation (line 145), replaced by the
    punctuation alone. -/
def wsBeforePunctFind (t : List Char) : Option (Nat × Nat × List Char) :=
  (List.range t.length).findSome? fun s =>
    let run := ((t.drop s).takeWhile isJsWs).length
    if run ≥ 1 && isPunctFive (t.getD (s + run) 'x') then
      some (s, run + 1, [t.getD (s + run) 'x'])
    else none

/-- Leftmost match of punctuation not followed by whitespace or the end of the
    text (line 146), replaced by the punctuation and one space. -/
def punctNoSpaceFind (t : List Char) : Option (Nat × Nat × List Char) :=
  (List.range t.length).findSome? fun s =>
    if isPunctFive (t.getD s 'x') &&
        (match (t.drop (s + 1)).head? with
          | some c => !isJsWs c
          | none => false) then
      some (s, 1, [t.getD s 'x', ' '])
    else none

/-- Leftmost run of two or more spaces or tabs (line 147), replaced by one
    space. -/
def spaceRunFind (t : List Char) : Option (Nat × Nat × List Char) :=
  (List.range t.length).findSome? fun s =>
    let run := ((t.drop s).takeWhile fun c => c = ' ' || c = '\t').length
    if run ≥ 2 then some (s, run, [' ']) else none

/-- Leftmost run of spaces or tabs before a newline (line 148), replaced by the
    newline. -/
def spaceBeforeNewlineFind (t : List Char) : Option (Nat × Nat × List Char) :=
  (List.range t.length).findSome? fun s =>
    let run := ((t.drop s).takeWhile fun c => c = ' ' || c = '\t').length
    if run ≥ 1 && t.getD (s + run) 'x' = '\n' then some (s, run + 1, ['\n'])
    else none

/-- Leftmost run of two or more newlines (line 149), replaced by one
    newline. -/
def newlineRunFind (t : List Char) : Option (Nat × Nat × List Char) :=
  (List.range t.length).findSome? fun s =>
    let run := ((t.drop s).takeWhile fun c => c = '\n').length
    if run ≥ 2 then some (s, run, ['\n']) else none

/-- The leading-wrapper class of line 154. -/
def leadWrapChar (c : Char) : Bool :=
  c = '[' || c = ']' || c = '(' || c = ')' || c = '{' || c = '}' ||
  c = '<' || c = '>' || c = '-' || c = '_' || c = ':' || c = ',' || c = '*'

/-- The leading-wrapper strip of line 154: remove a leading run of wrapper
    characters and the whitespace after it. -/
def stripLeadingWrappers (t : List Char) : List Char :=
  let r := (t.takeWhile leadWrapChar).length
  if r ≥ 1 then (t.drop r).dropWhile isJsWs else t

/-- The bracket characters of the trailing strip of line 157. -/
def tailBracketChar (c : Char) : Bool :=
  c = '[' || c = ']' || c = '(' || c = ')'

/-- The trailing-bracket strip of line 157: remove the last run of bracket
    characters that is followed only by whitespace. -/
def stripTrailingBrackets (t : List Char) : List Char :=
  match (List.range t.length).find? (fun s =>
      tailBracketChar (t.getD s ' ') &&
      ((t.drop s).dropWhile tailBracketChar).all isJsWs) with
  | some s => t.take s
  | none => t

/-- The orphan strip for an opening delimiter at the end (lines 161-162):
    remove the delimiter and everything after it when only whitespace
    follows. -/
def stripOrphanOpenAtEnd (d : Char) (t : List Char) : List Char :=
  match (List.range t.length).find? (fun s =>
      t.getD s ' ' = d && (t.drop (s + 1)).all isJsWs) with
  | some s => t.take s
  | none => t

/-- The orphan strip for a closing delimiter at the start (lines 163-164):
    remove leading whitespace and the delimiter when the text starts with
    them. -/
def stripOrphanCloseAtStart (d : Char) (t : List Char) : List Char :=
  let w := (t.takeWhile isJsWs).length
  if t.getD w ' ' = d then t.drop (w + 1) else t

/-- Model of sanitizeModelContent (src/App.js lines 97-167): the full ordered
    pipeline of replaces applied to the raw model output. -/
def sanitizeModelContent (raw : List Char) : List Char :=
  let c := stripBoilerplate boilerAlts1 raw
  let c := stripBoilerplate boilerAlts2 c
  let c := stripBoilerplate boilerAlts3 c
  let c := stripTrailingNumArtifact c
  let c := stripLeadingPunctRun c
  let c := stripTrailingPunctRun c
  let c := commaHeuristic c
  let c := jsReplaceAll (bracketCitationFind '[' ']' innerHasDomain) c
  let c := jsReplaceAll (bracketCitationFind '[' ']' innerHasUrl) c
  let c := jsReplaceAll (bracketCitationFind '[' ']' innerAllDigits) c
  let c := jsReplaceAll (bracketCitationFind '[' ']' innerAllWs) c
  let c := jsReplaceAll (bracketCitationFind '(' ')' innerHasDomain) c
  let c := jsReplaceAll (bracketCitationFind '(' ')' innerHasUrl) c
  let c := jsReplaceAll (bracketCitationFind '(' ')' innerStartsCitationWord) c
  let c := jsReplaceAll (bracketCitationFind '(' ')' innerAllWs) c
  let c := jsReplaceAll urlFind c
  let c := jsReplaceAll wwwFind c
  let c := jsReplaceAll wsBeforePunctFind c
  let c := jsReplaceAll punctNoSpaceFind c
  let c := jsReplaceAll spaceRunFind c
  let c := jsReplaceAll spaceBeforeNewlineFind c
  let c := jsReplaceAll newlineRunFind c
  let c := jsTrim c
  let c := stripLeadingWrappers c
  let c := stripTrailingBrackets c
  let c := stripOrphanOpenAtEnd '(' c
  let c := stripOrphanOpenAtEnd '[' c
  let c := stripOrphanCloseAtStart ')' c
  let c := stripOrphanCloseAtStart ']' c
  jsTrim c

/-! ### Specification-side predicates

These restate the specification's wording independently of the translated
source functions, for the refinement claims that compare the two. -/

/-- The boundary predicate of the specification for a blank at index i of a
    text: the character there is a slash; i is 0 or the previous character is
    whitespace and neither a colon nor a slash; the next character (a virtual
    whitespace when the slash ends the text) is not a slash. -/
def specSlashPlaceholder (t : List Char) (i : Nat) : Prop :=
  i < t.length ∧ t.getD i ' ' = '/' ∧
  (i = 0 ∨ (isSpaceLike (t.getD (i - 1) ' ') = true ∧
    t.getD (i - 1) ' ' ≠ ':' ∧ t.getD (i - 1) ' ' ≠ '/')) ∧
  (i + 1 < t.length → t.getD (i + 1) ' ' ≠ '/')

instance (t : List Char) (i : Nat) : Decidable (specSlashPlaceholder t i) := by
  unfold specSlashPlaceholder
  infer_instance

/-- The specification's sentence-punctuation condition: the text ends in a
    period, an exclamation mark or a question mark. -/
def specSentenceEnd (l : List Char) : Prop :=
  l.getLast? = some '.' ∨ l.getLast? = some '!' ∨ l.getLast? = some '?'

instance (l : List Char) : Decidable (specSentenceEnd l) := by
  unfold specSentenceEnd
  infer_instance

/-! ### Helper lemmas -/

/-- Trimming the end of a list never lengthens it. -/
theorem jsTrimEnd_length_le (l : List Char) : (jsTrimEnd l).length ≤ l.length := by
  have h := (List.dropWhile_sublist (l := l.reverse) (p := isJsWs)).length_le
  simpa [jsTrimEnd] using h

/-- Trimming the start of a list never lengthens it. -/
theorem jsTrimStart_length_le (l : List Char) : (jsTrimStart l).length ≤ l.length :=
  (List.dropWhile_sublist (l := l) (p := isJsWs)).length_le

/-- Padding unfolds one position at a time, supplying the head answer (empty
    when the answers have run out). -/
theorem padAnswers_cons (as : List String) (n : Nat) :
    padAnswers as (n + 1) = as.headD "" :: padAnswers as.tail n := by
  cases as with
  | nil => simp [padAnswers, List.replicate_succ]
  | cons x xs => simp [padAnswers, Nat.succ_sub_succ]

/-- The scanner's character conditions agree with the specification's boundary
    predicate on in-range indices. -/
theorem slashCandidateAt_iff (t : List Char) (i : Nat) (h : i < t.length) :
    slashCandidateAt t i = true ↔
      (t.getD i ' ' = '/' ∧
        (i = 0 ∨ (isSpaceLike (t.getD (i - 1) ' ') = true ∧
          t.getD (i - 1) ' ' ≠ ':' ∧ t.getD (i - 1) ' ' ≠ '/')) ∧
        (i + 1 < t.length → t.getD (i + 1) ' ' ≠ '/')) := by
  have hc1 : (' ' : Char) ≠ ':' := by decide
  have hc2 : (' ' : Char) ≠ '/' := by decide
  by_cases hi : i = 0 <;> by_cases hnext : i + 1 < t.length
  · subst hi
    simp only [slashCandidateAt, isSpaceLike, if_pos rfl, Bool.and_eq_true,
      Bool.or_eq_true, bne_iff_ne, ne_eq, decide_eq_true_eq]
    tauto
  · subst hi
    have hd : t.getD (0 + 1) ' ' = ' ' := List.getD_eq_default _ _ (by omega)
    simp only [slashCandidateAt, isSpaceLike, if_pos rfl, hd, Bool.and_eq_true,
      Bool.or_eq_true, bne_iff_ne, ne_eq, decide_eq_true_eq]
    tauto
  · simp only [slashCandidateAt, isSpaceLike, if_neg hi, Bool.and_eq_true,
      Bool.or_eq_true, bne_iff_ne, ne_eq, decide_eq_true_eq]
    tauto
  · have hd : t.getD (i + 1) ' ' = ' ' := List.getD_eq_default _ _ (by omega)
    simp only [slashCandidateAt, isSpaceLike, if_neg hi, hd, Bool.and_eq_true,
      Bool.or_eq_true, bne_iff_ne, ne_eq, decide_eq_true_eq]
    tauto

/-! ### Claims -/

/-- C1 (amended): for every string, findAllSlashPlaceholders returns exactly
    the ascending list of indices that satisfy the specification's boundary
    predicate AND do not lie inside an image-marker span; the image-marker
    exclusion is the amendment the counterexample below forces. -/
theorem c1_scanner_returns_boundary_indices_outside_markers (t : List Char) :
    (∀ i, i ∈ findAllSlashPlaceholders t ↔
      specSlashPlaceholder t i ∧ insideImg t i = false) ∧
    List.Pairwise (· < ·) (findAllSlashPlaceholders t) := by
  constructor
  · intro i
    rw [findAllSlashPlaceholders, List.mem_filter, List.mem_range]
    constructor
    · rintro ⟨hlen, hp⟩
      simp only [Bool.and_eq_true, Bool.not_eq_true'] at hp
      exact ⟨⟨hlen, ((slashCandidateAt_iff t i hlen).mp hp.2)⟩, hp.1⟩
    · rintro ⟨⟨hlen, hspec⟩, hout⟩
      refine ⟨hlen, ?_⟩
      simp only [Bool.and_eq_true, Bool.not_eq_true']
      exact ⟨hout, (slashCandidateAt_iff t i hlen).mpr hspec⟩
  · exact List.Pairwise.sublist (List.filter_sublist _) (List.pairwise_lt_range t.length)

/-- C1 counterexample: in a text consisting of one image marker whose
    alt-url area contains a whitespace-preceded slash, index 8 satisfies the
    claim's boundary predicate, yet the scanner returns no positions at all,
    so the scanner's output is not exactly the boundary-predicate indices. -/
theorem c1_counterexample_marker_slash_not_returned :
    specSlashPlaceholder (("[IMG||a /b||c]".toList)) 8 ∧
    findAllSlashPlaceholders (("[IMG||a /b||c]".toList)) = [] := by
  constructor
  · decide
  · decide

/-- C10: the scanner never returns an index lying inside an image-marker
    span. -/
theorem c10_scanner_skips_image_marker_spans (t : List Char) (i : Nat)
    (h : i ∈ findAllSlashPlaceholders t) : insideImg t i = false := by
  rw [findAllSlashPlaceholders, List.mem_filter] at h
  have hp := h.2
  simp only [Bool.and_eq_true, Bool.not_eq_true'] at hp
  exact hp.1

/-- C10 witness: a concrete text with a blank outside a marker; the scanner
    returns it and the theorem reports it outside every marker span. -/
theorem c10_witness :
    2 ∈ findAllSlashPlaceholders (("a / [IMG||u/v||w]".toList)) ∧
    insideImg (("a / [IMG||u/v||w]".toList)) 2 = false := by
  refine ⟨by decide, c10_scanner_skips_image_marker_spans _ 2 (by decide)⟩

/-- A value produced by getLast? is a member of the list. -/
theorem mem_of_getLast?_eq_some {α : Type} {l : List α} {a : α}
    (h : l.getLast? = some a) : a ∈ l := by
  obtain ⟨hne, rfl⟩ := List.mem_getLast?_eq_getLast (Option.mem_def.mpr h)
  exact List.getLast_mem hne

/-- The source's batch condition agrees with the specification's disjunction:
    sentence punctuation at the end of the trimmed text, a trailing newline,
    a text that trims to nothing, or an outstanding blank found by the
    scanner. -/
theorem myAppIsBatchFill_iff (pre : List Char) :
    myAppIsBatchFill pre = true ↔
      (specSentenceEnd (jsTrimEnd pre) ∨ pre.getLast? = some '\n' ∨
        jsTrimEnd pre = [] ∨ (findSingleSlash pre).isSome = true) := by
  cases hL : (jsTrimEnd pre).getLast? with
  | none =>
    simp only [myAppIsBatchFill, endsWithSentencePunct, specSentenceEnd, hL,
      Bool.or_eq_true, decide_eq_true_eq]
    tauto
  | some c =>
    simp only [myAppIsBatchFill, endsWithSentencePunct, specSentenceEnd, hL,
      Bool.or_eq_true, decide_eq_true_eq, Option.some.injEq]
    tauto

/-- C2: when a trigger is present and the text before it is not blank, the
    classifier of the myApp snapshot picks Batch exactly under the
    specification's disjunction, and Inline exactly otherwise. -/
theorem c2_classifier_batch_iff (t : List Char) (i : Nat)
    (hf : findDoubleTrigger t = some i) (hb : jsTrim (t.take i) ≠ []) :
    (classifyTrigger t = some TriggerMode.batch ↔
      (specSentenceEnd (jsTrimEnd (t.take i)) ∨ (t.take i).getLast? = some '\n' ∨
        jsTrimEnd (t.take i) = [] ∨ (findSingleSlash (t.take i)).isSome = true)) ∧
    (classifyTrigger t = some TriggerMode.inlineFill ↔
      ¬(specSentenceEnd (jsTrimEnd (t.take i)) ∨ (t.take i).getLast? = some '\n' ∨
        jsTrimEnd (t.take i) = [] ∨ (findSingleSlash (t.take i)).isSome = true)) := by
  have hmain := myAppIsBatchFill_iff (t.take i)
  unfold classifyTrigger
  rw [hf]
  simp only [if_neg hb]
  rw [← hmain]
  by_cases hB : myAppIsBatchFill (t.take i) = true
  · simp [hB]
  · simp [hB]

/-- C2 witness: a concrete sentence-final trigger classifies as Batch. -/
theorem c2_witness :
    findDoubleTrigger ("Hi.//".toList) = some 3 ∧
    classifyTrigger ("Hi.//".toList) = some TriggerMode.batch := by
  refine ⟨by decide, ?_⟩
  exact (c2_classifier_batch_iff ("Hi.//".toList) 3 (by decide) (by decide)).1.mpr
    (by decide)

/-- C7 (amended): with the connectivity status not connected, a trigger never
    reaches a transport call and the orchestrator restores text and alerts,
    but only the easter-egg branch reinserts the two trigger characters; the
    batch branch of src/App.js line 1340 restores the text it received, which
    is the document with the two trigger characters removed. -/
theorem c7_not_connected_restores_without_trigger_chars (t : List Char) (i : Nat)
    (hf : findDoubleTrigger t = some i) :
    (handleTextChange false t =
      if jsTrim (t.take i) = [] then
        TriggerAction.easterRefused (t.take i ++ '/' :: '/' :: t.drop (i + 2))
      else TriggerAction.batchRefused (t.take i ++ t.drop (i + 2))) ∧
    (∀ m b a, handleTextChange false t ≠ TriggerAction.batchCall m b a) := by
  unfold handleTextChange
  rw [hf]
  constructor
  · by_cases hp : jsTrim (t.take i) = [] <;> simp [hp]
  · intro m b a
    by_cases hp : jsTrim (t.take i) = [] <;> simp [hp]

/-- C7 counterexample: typing a.// while disconnected restores a. — the
    double slash the user typed is gone, so the original trigger text is not
    restored unchanged as the claim states. -/
theorem c7_counterexample_double_slash_lost :
    handleTextChange false ("a.//".toList) =
      TriggerAction.batchRefused ("a.".toList) ∧
    ("a.".toList : List Char) ≠ ("a.//".toList) := by
  constructor
  · decide
  · decide

/-- C7 witness: the amended statement evaluated on the concrete refused
    trigger. -/
theorem c7_witness :
    findDoubleTrigger ("a.//".toList) = some 2 ∧
    handleTextChange false ("a.//".toList) =
      TriggerAction.batchRefused ("a.".toList) := by
  refine ⟨by decide, ?_⟩
  exact ((c7_not_connected_restores_without_trigger_chars ("a.//".toList) 2
    (by decide)).1).trans (by decide)

/-- C9: a trigger with a blank left part while connected runs the easter egg:
    no transport call is issued, the fixed literal streams in one character
    per tick behind the cursor marker, settles as the plain literal, and is
    then erased one character per tick down to the empty document. -/
theorem c9_easter_egg_streams_and_erases (t : List Char) (i : Nat)
    (hf : findDoubleTrigger t = some i) (hp : jsTrim (t.take i) = []) :
    handleTextChange true t = TriggerAction.easterRun boingText ∧
    (∀ m b a, handleTextChange true t ≠ TriggerAction.batchCall m b a) ∧
    (∀ j, j < boingText.length →
      easterStates.getD j [' '] = boingText.take (j + 1) ++ [zwsp]) ∧
    easterStates.getD boingText.length [' '] = boingText ∧
    (∀ k, k < boingText.length →
      easterStates.getD (boingText.length + 1 + k) [' '] =
        boingText.take (boingText.length - 1 - k)) ∧
    easterStates.getLastD [' '] = [] := by
  have h1 : handleTextChange true t = TriggerAction.easterRun boingText := by
    unfold handleTextChange
    rw [hf]
    simp [hp]
  refine ⟨h1, ?_, by decide, by decide, by decide, by decide⟩
  intro m b a
  rw [h1]
  simp

/-- C9 witness: the empty document with a typed trigger. -/
theorem c9_witness :
    findDoubleTrigger ("//".toList) = some 0 ∧
    handleTextChange true ("//".toList) = TriggerAction.easterRun boingText := by
  refine ⟨by decide, ?_⟩
  exact (c9_easter_egg_streams_and_erases ("//".toList) 0 (by decide) (by decide)).1

/-- C6 (amended): the fallback split runs only when a bracketed span exists
    but fails to parse as JSON.  When the message content has no opening
    bracket followed later by a closing bracket, the parser returns the empty
    answer list (later padded with empty strings); and on a present but
    malformed span such as bracket Paris, Lyon bracket the fallback split does
    produce the two answers. -/
theorem c6_no_bracket_yields_empty_answers :
    (∀ raw : List Char,
      (∀ j, j < raw.length → ∀ i, i < j →
        ¬(raw.getD i ' ' = '[' ∧ raw.getD j ' ' = ']')) →
      parseBatchAnswers raw = []) ∧
    parseBatchAnswers ("[Paris, Lyon]".toList) = ["Paris", "Lyon"] := by
  constructor
  · intro raw h
    unfold parseBatchAnswers bracketSpan
    cases hf : firstIdx raw '[' with
    | none => rfl
    | some i =>
      cases hl : lastIdx raw ']' with
      | none => rfl
      | some j =>
        have hfi : raw.getD i ' ' = '[' := by
          have := List.find?_some hf
          simpa using this
        have hjmem : j ∈ (List.range raw.length).filter fun k => raw.getD k ' ' = ']' :=
          mem_of_getLast?_eq_some hl
        rw [List.mem_filter, List.mem_range] at hjmem
        have hjv : raw.getD j ' ' = ']' := by simpa using hjmem.2
        have hij : ¬ i < j := fun hlt => h j hjmem.1 i hlt ⟨hfi, hjv⟩
        simp [hij]
  · decide

/-- C6 counterexample: the claim's own example — raw content Paris, Lyon with
    no brackets — yields no answers at all, not the two split answers. -/
theorem c6_counterexample_fallback_never_runs :
    parseBatchAnswers ("Paris, Lyon".toList) = [] ∧
    (([] : List String) ≠ ["Paris", "Lyon"]) := by
  constructor
  · decide
  · decide

/-- C6 witness: the universal part of the amended claim applied to the
    bracketless content. -/
theorem c6_witness :
    (∀ j, j < ("Paris, Lyon".toList).length → ∀ i, i < j →
      ¬(("Paris, Lyon".toList).getD i ' ' = '[' ∧
        ("Paris, Lyon".toList).getD j ' ' = ']')) ∧
    parseBatchAnswers ("Paris, Lyon".toList) = [] := by
  refine ⟨by decide, ?_⟩
  exact c6_no_bracket_yields_empty_answers.1 ("Paris, Lyon".toList) (by decide)

/-- C8 (amended): the sanitizer is idempotent exactly on its fixed points; a
    second application can strip further, so idempotence does not hold for
    every string. -/
theorem c8_sanitize_idempotent_on_fixed_points (x : List Char)
    (h : sanitizeModelContent x = x) :
    sanitizeModelContent (sanitizeModelContent x) = sanitizeModelContent x := by
  rw [h]
  exact h

/-- C8 counterexample: one sanitizer pass turns the input into a string that
    still begins with a strippable article, so a second pass strips more and
    idempotence fails. -/
theorem c8_counterexample_not_idempotent :
    sanitizeModelContent (("[1] the cat".toList)) = ("the cat".toList) ∧
    sanitizeModelContent (("the cat".toList)) = ("cat".toList) ∧
    sanitizeModelContent (sanitizeModelContent (("[1] the cat".toList))) ≠
      sanitizeModelContent (("[1] the cat".toList)) := by
  refine ⟨by decide, by decide, ?_⟩
  decide

/-- C8 witness: the amended statement applied at a concrete fixed point. -/
theorem c8_witness :
    sanitizeModelContent ("cat".toList) = ("cat".toList) ∧
    sanitizeModelContent (sanitizeModelContent ("cat".toList)) =
      sanitizeModelContent ("cat".toList) := by
  refine ⟨by decide, ?_⟩
  exact c8_sanitize_idempotent_on_fixed_points ("cat".toList) (by decide)

/-- Padding then truncating unfolds one position at a time. -/
theorem padAnswers_take_cons (as : List String) (n : Nat) :
    (padAnswers as (n + 1)).take (n + 1) =
      as.headD "" :: (padAnswers as.tail n).take n := by
  rw [padAnswers_cons]
  rfl

/-- The animation loop reads only the first blankCount answers, each defaulted
    to the empty string when missing. -/
theorem animateAux_pad_take (L : Nat) (ps : List Nat) :
    ∀ (cur : List Char) (as : List String),
      animateBatchFillsAux L cur ps ((padAnswers as ps.length).take ps.length) =
        animateBatchFillsAux L cur ps as := by
  induction ps with
  | nil => intro cur as; rfl
  | cons pos ps ih =>
    intro cur as
    rw [List.length_cons, padAnswers_take_cons]
    by_cases hx : as.headD "" = ""
    · simp only [animateBatchFillsAux, List.headD_cons, List.tail_cons, if_pos hx]
      exact ih cur as.tail
    · simp only [animateBatchFillsAux, List.headD_cons, List.tail_cons, if_neg hx]
      exact ih _ as.tail

/-- C5: for every batch fill, the answers actually used are the parsed answers
    padded with empty strings and truncated to exactly blankCount — exactly
    one answer per fill position — and using that padded/truncated list
    produces the same final document as the raw parsed list. -/
theorem c5_exactly_blank_count_answers_used (base : List Char) (ps : List Nat)
    (as : List String) :
    ((padAnswers as ps.length).take ps.length).length = ps.length ∧
    animateBatchFills base ps ((padAnswers as ps.length).take ps.length) =
      animateBatchFills base ps as := by
  constructor
  · simp only [List.length_take, padAnswers, List.length_append,
      List.length_replicate]
    omega
  · exact animateAux_pad_take _ ps base as

/-- Splicing one step changes the length by the spaced answer's length minus
    the trimmed whitespace, over the integers. -/
theorem batchStepText_length (L : Nat) (cur : List Char) (pos : Nat) (ans : String) :
    ((batchStepText L cur pos ans.toList).length : Int) =
      cur.length + ((evSpaced L ⟨cur, pos, ans⟩).length : Int) -
        (evTrimmed L ⟨cur, pos, ans⟩ : Int) := by
  simp only [batchStepText, evSpaced, evTrimmed, List.length_append]
  have h1 : (cur.take (jsSliceSplit cur.length
      ((pos : Int) + ((cur.length : Int) - (L : Int))))).length +
      (cur.drop (jsSliceSplit cur.length
        ((pos : Int) + ((cur.length : Int) - (L : Int))))).length = cur.length := by
    simp [List.length_take, List.length_drop]
    omega
  have h2 := jsTrimEnd_length_le (cur.take (jsSliceSplit cur.length
    ((pos : Int) + ((cur.length : Int) - (L : Int)))))
  have h3 := jsTrimStart_length_le (cur.drop (jsSliceSplit cur.length
    ((pos : Int) + ((cur.length : Int) - (L : Int)))))
  omega

/-- The length of the final text equals the starting length plus the summed
    spaced-answer lengths of the applied insertions minus the summed trimmed
    whitespace, over the integers. -/
theorem animateAux_length (L : Nat) (ps : List Nat) :
    ∀ (cur : List Char) (as : List String),
      ((animateBatchFillsAux L cur ps as).length : Int) =
        cur.length +
          ((batchEventsAux L cur ps as).map fun e =>
            ((evSpaced L e).length : Int)).sum -
          ((batchEventsAux L cur ps as).map fun e => (evTrimmed L e : Int)).sum := by
  induction ps with
  | nil =>
    intro cur as
    simp [animateBatchFillsAux, batchEventsAux]
  | cons pos ps ih =>
    intro cur as
    by_cases hx : as.headD "" = ""
    · simp only [animateBatchFillsAux, batchEventsAux, if_pos hx]
      exact ih cur as.tail
    · simp only [animateBatchFillsAux, batchEventsAux, if_neg hx, List.map_cons,
        List.sum_cons]
      have hstep := batchStepText_length L cur pos (as.headD "")
      have hrec := ih (batchStepText L cur pos (as.headD "").toList) as.tail
      omega

/-- C3 (amended): for every batch fill, the final length is the base length
    plus the total length of the spaced answers actually inserted (empty
    answers are skipped) minus the total whitespace trimmed around the
    insertion points.  The specification's minus-n term arises only in the
    special case in which every position carries a non-empty answer and each
    insertion trims exactly one whitespace character. -/
theorem c3_offset_law_with_trimming (base : List Char) (ps : List Nat)
    (as : List String) :
    ((animateBatchFills base ps as).length : Int) =
      base.length +
        ((batchEvents base ps as).map fun e =>
          ((evSpaced base.length e).length : Int)).sum -
        ((batchEvents base ps as).map fun e => (evTrimmed base.length e : Int)).sum :=
  animateAux_length base.length ps base as

/-- C3 counterexample: a reachable batch fill (typing a.// produces base text
    a. with the single anchor 2) whose one spaced answer has length two; the
    final text has length four, but the claimed law predicts
    two minus one plus two, that is three. -/
theorem c3_counterexample_minus_n_fails :
    animateBatchFills ("a.".toList) [2] ["X"] = ("a. X".toList) ∧
    (batchEvents ("a.".toList) [2] ["X"]).map
      (fun e => (evSpaced 2 e).length) = [2] ∧
    ¬(((animateBatchFills ("a.".toList) [2] ["X"]).length : Int) =
      (("a.".toList).length : Int) - 1 + 2) := by
  refine ⟨by decide, by decide, ?_⟩
  decide

/-- The applied position-answer pairs unfold one position at a time. -/
theorem appliedPairs_cons (pos : Nat) (ps : List Nat) (as : List String) :
    appliedPairs (pos :: ps) as =
      (if as.headD "" = "" then appliedPairs ps as.tail
       else (pos, as.headD "") :: appliedPairs ps as.tail) := by
  simp only [appliedPairs, List.length_cons, padAnswers_cons, List.zip_cons_cons,
    List.filter_cons]
  by_cases hx : as.headD "" = "" <;> simp [hx]

/-- The insertion events record exactly the applied position-answer pairs, in
    document order: the pairing is positional, independent of the order in
    which the response array lists its answers. -/
theorem batchEventsAux_pairs (L : Nat) (ps : List Nat) :
    ∀ (cur : List Char) (as : List String),
      (batchEventsAux L cur ps as).map (fun e => (e.anchor, e.answer)) =
        appliedPairs ps as := by
  induction ps with
  | nil =>
    intro cur as
    simp [batchEventsAux, appliedPairs]
  | cons pos ps ih =>
    intro cur as
    rw [appliedPairs_cons]
    by_cases hx : as.headD "" = ""
    · simp only [batchEventsAux, if_pos hx]
      exact ih cur as.tail
    · simp only [batchEventsAux, if_neg hx, List.map_cons]
      rw [ih _ as.tail]

/-- Each event's starting buffer is the buffer produced by the previous event,
    and the first event starts from the buffer the run began with. -/
theorem batchEventsAux_chain (L : Nat) (ps : List Nat) :
    ∀ (cur : List Char) (as : List String),
      List.Chain' (fun a b =>
        b.prevBuf = batchStepText L a.prevBuf a.anchor a.answer.toList)
        (batchEventsAux L cur ps as) ∧
      (∀ e, (batchEventsAux L cur ps as).head? = some e → e.prevBuf = cur) := by
  induction ps with
  | nil =>
    intro cur as
    simp [batchEventsAux]
  | cons pos ps ih =>
    intro cur as
    by_cases hx : as.headD "" = ""
    · simp only [batchEventsAux, if_pos hx]
      exact ih cur as.tail
    · simp only [batchEventsAux, if_neg hx]
      have hrec := ih (batchStepText L cur pos (as.headD "").toList) as.tail
      constructor
      · rw [List.chain'_cons']
        refine ⟨?_, hrec.1⟩
        intro b hb
        exact hrec.2 b hb
      · intro e he
        simp only [List.head?_cons, Option.some.injEq] at he
        rw [← he]

/-- The animation loop is the left fold of the step function over the event
    list: each insertion is computed from the buffer left by all earlier
    insertions, never concurrently. -/
theorem animateAux_eq_fold (L : Nat) (ps : List Nat) :
    ∀ (cur : List Char) (as : List String),
      animateBatchFillsAux L cur ps as =
        (batchEventsAux L cur ps as).foldl
          (fun buf e => batchStepText L buf e.anchor e.answer.toList) cur := by
  induction ps with
  | nil =>
    intro cur as
    rfl
  | cons pos ps ih =>
    intro cur as
    by_cases hx : as.headD "" = ""
    · simp only [animateBatchFillsAux, batchEventsAux, if_pos hx]
      exact ih cur as.tail
    · simp only [animateBatchFillsAux, batchEventsAux, if_neg hx, List.foldl_cons]
      exact ih _ as.tail

/-- The padded answers are at least as long as the positions list. -/
theorem padAnswers_length_ge (as : List String) (n : Nat) :
    n ≤ (padAnswers as n).length := by
  simp only [padAnswers, List.length_append, List.length_replicate]
  omega

/-- C4: within one batch fill with strictly ascending anchor positions, the
    i-th applied answer is the answer stored at the i-th anchor's index — the
    pairing is positional and independent of any reordering of the response
    list as a whole — the applied anchors are strictly increasing (left to
    right in original document order), each insertion starts from the buffer
    produced by the previous insertion (the starting buffer of the first is
    the base text), and the final document is the sequential left fold of the
    insertions. -/
theorem c4_insertions_left_to_right_sequential (base : List Char) (ps : List Nat)
    (as : List String) (hs : List.Pairwise (· < ·) ps) :
    ((batchEvents base ps as).map fun e => (e.anchor, e.answer)) =
      appliedPairs ps as ∧
    List.Pairwise (· < ·) ((batchEvents base ps as).map fun e => e.anchor) ∧
    List.Chain' (fun a b =>
      b.prevBuf = batchStepText base.length a.prevBuf a.anchor a.answer.toList)
      (batchEvents base ps as) ∧
    (∀ e, (batchEvents base ps as).head? = some e → e.prevBuf = base) ∧
    animateBatchFills base ps as =
      (batchEvents base ps as).foldl
        (fun buf e => batchStepText base.length buf e.anchor e.answer.toList)
        base := by
  simp only [batchEvents, animateBatchFills]
  have hpairs := batchEventsAux_pairs base.length ps base as
  have hchain := batchEventsAux_chain base.length ps base as
  refine ⟨hpairs, ?_, hchain.1, hchain.2, animateAux_eq_fold base.length ps base as⟩
  have hmap : (batchEventsAux base.length base ps as).map (fun e => e.anchor) =
      (appliedPairs ps as).map Prod.fst := by
    calc (batchEventsAux base.length base ps as).map (fun e => e.anchor)
        = ((batchEventsAux base.length base ps as).map
            (fun e => (e.anchor, e.answer))).map Prod.fst := by
          rw [List.map_map]
          rfl
      _ = (appliedPairs ps as).map Prod.fst := by rw [hpairs]
  rw [hmap]
  have hsub : List.Sublist ((appliedPairs ps as).map Prod.fst) ps := by
    have h1 : (appliedPairs ps as).Sublist (ps.zip (padAnswers as ps.length)) :=
      List.filter_sublist _
    have h2 := List.Sublist.map Prod.fst h1
    rw [List.map_fst_zip ps (padAnswers as ps.length)
      (padAnswers_length_ge as ps.length)] at h2
    exact h2
  exact List.Pairwise.sublist hsub hs

/-- C4 witness: a concrete two-blank batch applied in ascending anchor
    order. -/
theorem c4_witness :
    List.Pairwise (· < ·) [0, 2] ∧
    ((batchEvents ("x y".toList) [0, 2] ["A", "B"]).map fun e => e.anchor) =
      [0, 2] := by
  refine ⟨by decide, ?_⟩
  have h := (c4_insertions_left_to_right_sequential ("x y".toList) [0, 2]
    ["A", "B"] (by decide)).1
  have : ((batchEvents ("x y".toList) [0, 2] ["A", "B"]).map fun e =>
      (e.anchor, e.answer)) = appliedPairs [0, 2] ["A", "B"] := h
  calc ((batchEvents ("x y".toList) [0, 2] ["A", "B"]).map fun e => e.anchor)
      = (((batchEvents ("x y".toList) [0, 2] ["A", "B"]).map fun e =>
          (e.anchor, e.answer)).map Prod.fst) := by
        rw [List.map_map]
        rfl
    _ = (appliedPairs [0, 2] ["A", "B"]).map Prod.fst := by rw [this]
    _ = [0, 2] := by decide

end TextEditor
